import Mathlib

/-!
Verification of the todo-backend core (jayk0001/my-go-next-todo).

Shallow embedding of the Go source:
- `internal/todo`: validator (`validator.go`), repository and service
  (service/repository files), errors (`errors.go`);
- `internal/auth`: user repository (`repository.go`), register/login input
  validator, JWT service (`jwt.go`), auth service.

The relational store is modelled as an in-memory list of rows; SQL queries are
embedded by the row-level operation they parameterize (`WHERE id = $1 AND
user_id = $2` becomes a predicate over rows).  Mutating operations return the
new store explicitly.  Go `error` values become inductive error types, with a
`wrap` constructor standing for `fmt.Errorf("...: %w", err)`.
-/

/-- Row of the `todos` table / Go struct `todo.Todo`.  Timestamps other than
`created_at` (used only for `ORDER BY created_at DESC`) are outside the model. -/
structure Todo where
  id : Int
  userID : Int
  title : String
  description : Option String
  completed : Bool
  createdAt : Int
deriving DecidableEq, Repr

/-- Go struct `todo.CreateTodoInput`. -/
structure CreateTodoInput where
  title : String
  description : Option String
deriving DecidableEq, Repr

/-- Go struct `todo.UpdateTodoInput` (pointer fields become `Option`). -/
structure UpdateTodoInput where
  title : Option String
  description : Option String
  completed : Option Bool
deriving DecidableEq, Repr

/-- Go struct `todo.TodoFilter`. -/
structure TodoFilter where
  completed : Option Bool
  search : Option String
  limit : Int
  offset : Int
deriving DecidableEq, Repr

/-- Go struct `todo.TodoListResponse` (the pagination envelope). -/
structure TodoListResponse where
  todos : List Todo
  limit : Int
  offset : Int
  hasMore : Bool
  total : Int
deriving DecidableEq, Repr

/-- Go struct `todo.TodoStats`. -/
structure TodoStats where
  total : Int
  completed : Int
  pending : Int
deriving DecidableEq, Repr

/-- Error values of package `todo` (`errors.go`), plus `sql.ErrNoRows` and a
`wrap` constructor for `fmt.Errorf("msg: %w", err)`. -/
inductive TodoErr where
  | todoNotFound
  | todoAccessDenied
  | invalidTodoInput
  | todoTitleRequired
  | todoTitleTooLong
  | todoDescriptionTooLong
  | sqlNoRows
  | wrap (msg : String) (inner : TodoErr)
deriving DecidableEq, Repr

/-- Rendering of an error as Go's `%v` does: the sentinel messages of
`errors.go`, and `fmt.Errorf("msg: %w", e)` prints as `"msg: " ++ e`. -/
def TodoErr.message : TodoErr → String
  | .todoNotFound => "todo not found"
  | .todoAccessDenied => "access denied: todo does not belong to user"
  | .invalidTodoInput => "invalid todo input"
  | .todoTitleRequired => "todo title is required"
  | .todoTitleTooLong => "todo title too long (max 500 characters)"
  | .todoDescriptionTooLong => "todo description too long (max 2000 characters)"
  | .sqlNoRows => "no rows in result set"
  | .wrap msg inner => msg ++ ": " ++ inner.message

/-- `ValidatorService.validateTitle`: empty title, then `len(title) > 500`
(Go `len` is the UTF-8 byte count). -/
def validateTitle (title : String) : Except TodoErr Unit :=
  if title = "" then .error .todoTitleRequired
  else if 500 < title.utf8ByteSize then .error .todoTitleTooLong
  else .ok ()

/-- `ValidatorService.validateDescription`: `len(description) > 2000`. -/
def validateDescription (description : String) : Except TodoErr Unit :=
  if 2000 < description.utf8ByteSize then .error .todoDescriptionTooLong
  else .ok ()

/-- `ValidatorService.ValidateTodoInput` (create-todo validation). -/
def ValidateTodoInput (input : CreateTodoInput) : Except TodoErr Unit :=
  match validateTitle input.title with
  | .error e => .error e
  | .ok () =>
    match input.description with
    | some d => validateDescription d
    | none => .ok ()

/-- `ValidatorService.ValidateUpdateInput`: at least one field must be provided,
then each present field is validated with the create-side bounds. -/
def ValidateUpdateInput (input : UpdateTodoInput) : Except TodoErr Unit :=
  if input.completed = none ∧ input.description = none ∧ input.title = none then
    .error .invalidTodoInput
  else
    match (match input.title with
           | some t => validateTitle t
           | none => .ok ()) with
    | .error e => .error e
    | .ok () =>
      match input.description with
      | some d => validateDescription d
      | none => .ok ()

/-- Latin-1 range of Go's `unicode.IsSpace` (the whitespace class
`strings.TrimSpace` strips): `\t \n \v \f \r ' '` U+0085 U+00A0. -/
def goIsSpace (c : Char) : Bool :=
  c = ' ' || c = '\t' || c = '\n' || c = '\x0b' || c = '\x0c' || c = '\r' ||
  c = '\x85' || c = '\xa0'

/-- Character-list core of `strings.TrimSpace`: drop whitespace from both ends. -/
def goTrimSpaceChars (l : List Char) : List Char :=
  ((l.dropWhile goIsSpace).reverse.dropWhile goIsSpace).reverse

/-- Go `strings.TrimSpace`. -/
def goTrimSpace (s : String) : String :=
  ⟨goTrimSpaceChars s.data⟩

/-- `TodoService.normalizeFilter`: default limit 20 when ≤ 0, cap at 100,
clamp negative offset to 0, trim the search term and drop it when the trimmed
term is empty. -/
def TodoService.normalizeFilter (filter : TodoFilter) : TodoFilter :=
  let limit1 := if filter.limit ≤ 0 then 20 else filter.limit
  let limit2 := if 100 < limit1 then 100 else limit1
  let offset := if filter.offset < 0 then 0 else filter.offset
  let search :=
    match filter.search with
    | some s =>
      let trimmed := goTrimSpace s
      if trimmed = "" then none else some trimmed
    | none => none
  { completed := filter.completed, search := search, limit := limit2, offset := offset }

/-- Row predicate of the SQL `WHERE id = $1 AND user_id = $2` ownership scope. -/
def ownScope (todoID userID : Int) (t : Todo) : Bool :=
  t.id == todoID && t.userID == userID

/-- `TodoRepository.GetByID`: `SELECT ... WHERE id = $1 AND user_id = $2`;
`sql.ErrNoRows` is mapped to `ErrTodoNotFound`. -/
def TodoRepository.GetByID (db : List Todo) (todoID userID : Int) :
    Except TodoErr Todo :=
  match db.find? (ownScope todoID userID) with
  | some t => .ok t
  | none => .error .todoNotFound

/-- Field overwrite of the dynamic `SET` clause of `TodoRepository.Update`:
only the supplied fields change. -/
def applyUpdateInput (input : UpdateTodoInput) (t : Todo) : Todo :=
  { t with
    title := input.title.getD t.title
    description := match input.description with
                   | some d => some d
                   | none => t.description
    completed := input.completed.getD t.completed }

/-- Row function of `UPDATE todos SET ... WHERE id = $1 AND user_id = $2`:
rows in the ownership scope are overwritten, all others kept. -/
def updFun (todoID userID : Int) (input : UpdateTodoInput) (t : Todo) : Todo :=
  if ownScope todoID userID t then applyUpdateInput input t else t

/-- `TodoRepository.Update`: with no supplied field it degenerates to
`GetByID`; otherwise the `UPDATE ... RETURNING` row operation.  `QueryRow` on
zero affected rows yields `ErrNoRows`, which `Update` only wraps.  Returns the
updated row and the new store. -/
def TodoRepository.Update (db : List Todo) (todoID userID : Int)
    (input : UpdateTodoInput) : Except TodoErr (Todo × List Todo) :=
  if input.title = none ∧ input.description = none ∧ input.completed = none then
    match TodoRepository.GetByID db todoID userID with
    | .ok t => .ok (t, db)
    | .error e => .error e
  else
    match db.find? (ownScope todoID userID) with
    | some t => .ok (applyUpdateInput input t, db.map (updFun todoID userID input))
    | none => .error (.wrap "failed to update todo" .sqlNoRows)

/-- `TodoRepository.Delete`: `DELETE ... WHERE id = $1 AND user_id = $2`;
`RowsAffected() == 0` becomes `ErrTodoNotFound`.  Returns the new store. -/
def TodoRepository.Delete (db : List Todo) (todoID userID : Int) :
    Except TodoErr (List Todo) :=
  let remaining := db.filter (fun t => !(ownScope todoID userID t))
  if remaining.length == db.length then .error .todoNotFound
  else .ok remaining

/-- `TodoRepository.ToggleComplete`: `UPDATE todos SET completed = NOT
completed WHERE id = $1 AND user_id = $2 RETURNING ...`; `ErrNoRows` maps to
`ErrTodoNotFound`. -/
def TodoRepository.ToggleComplete (db : List Todo) (todoID userID : Int) :
    Except TodoErr (Todo × List Todo) :=
  match db.find? (ownScope todoID userID) with
  | some t =>
    .ok ({ t with completed := !t.completed },
         db.map (fun u => if ownScope todoID userID u
                          then { u with completed := !u.completed } else u))
  | none => .error .todoNotFound

/-- `TodoRepository.CountByUserID`: `SELECT COUNT(*) FROM todos WHERE user_id = $1`. -/
def TodoRepository.CountByUserID (db : List Todo) (userID : Int) : Int :=
  ((db.filter (fun t => t.userID == userID)).length : Int)

/-- Substring test on character lists (Go `strings.Contains`, and the core of
SQL `LIKE '%term%'`). -/
def hasSubstr : List Char → List Char → Bool
  | [], needle => needle.isEmpty
  | h :: t, needle => needle.isPrefixOf (h :: t) || hasSubstr t needle

/-- Row predicate of `(title ILIKE $n OR description ILIKE $n)` with pattern
`'%' + term + '%'`: case-insensitive substring over title or description; a
NULL description never matches. -/
def matchesSearch (term : String) (t : Todo) : Bool :=
  hasSubstr t.title.toLower.data term.toLower.data ||
  (match t.description with
   | some d => hasSubstr d.toLower.data term.toLower.data
   | none => false)

/-- Insertion step for `ORDER BY created_at DESC`. -/
def insertByCreatedDesc (t : Todo) : List Todo → List Todo
  | [] => [t]
  | h :: rest =>
    if h.createdAt ≤ t.createdAt then t :: h :: rest
    else h :: insertByCreatedDesc t rest

/-- `ORDER BY created_at DESC` as a stable insertion sort. -/
def sortByCreatedDesc : List Todo → List Todo
  | [] => []
  | h :: rest => insertByCreatedDesc h (sortByCreatedDesc rest)

/-- `TodoRepository.GetByUserID`: the filtered/paginated listing.  The built
query is modelled by its row-level semantics (scope to the user, optional
completed equality, optional search, order newest-first, `OFFSET`/`LIMIT` only
when positive); the model abstracts from the placeholder-string construction
of the Go code.  After the rows are scanned, `total` is taken from the
unfiltered `CountByUserID`, the reported limit falls back to `len(todos)` when
the filter's limit is exactly 0, and `hasMore := offset + len(todos) < total`. -/
def TodoRepository.GetByUserID (db : List Todo) (userID : Int)
    (filter : TodoFilter) : TodoListResponse :=
  let owned := db.filter (fun t => t.userID == userID)
  let afterCompleted :=
    match filter.completed with
    | some c => owned.filter (fun t => t.completed == c)
    | none => owned
  let afterSearch :=
    match filter.search with
    | some s => if s = "" then afterCompleted
                else afterCompleted.filter (matchesSearch s)
    | none => afterCompleted
  let ordered := sortByCreatedDesc afterSearch
  let afterOffset := if 0 < filter.offset then ordered.drop filter.offset.toNat
                     else ordered
  let todos := if 0 < filter.limit then afterOffset.take filter.limit.toNat
               else afterOffset
  let total := TodoRepository.CountByUserID db userID
  let limit := if filter.limit == 0 then (todos.length : Int) else filter.limit
  let offset := filter.offset
  let hasMore := decide (offset + (todos.length : Int) < total)
  { todos := todos, limit := limit, offset := offset, hasMore := hasMore,
    total := total }

/-- `TodoService.GetTodo`: non-positive id is rejected as `ErrInvalidTodoInput`
before storage; a repository error is wrapped with `"failed to get todos"`. -/
def TodoService.GetTodo (db : List Todo) (todoID userID : Int) :
    Except TodoErr Todo :=
  if todoID ≤ 0 then .error .invalidTodoInput
  else
    match TodoRepository.GetByID db todoID userID with
    | .ok t => .ok t
    | .error e => .error (.wrap "failed to get todos" e)

/-- `TodoService.GetUserTodos`: normalize the filter, then list. -/
def TodoService.GetUserTodos (db : List Todo) (userID : Int)
    (filter : TodoFilter) : TodoListResponse :=
  TodoRepository.GetByUserID db userID (TodoService.normalizeFilter filter)

/-- `TodoService.UpdateTodo`: id guard, input validation, then the ownership
check (`GetByID`); its `ErrTodoNotFound` is converted to `ErrTodoAccessDenied`
before the repository update runs. -/
def TodoService.UpdateTodo (db : List Todo) (todoID userID : Int)
    (input : UpdateTodoInput) : Except TodoErr (Todo × List Todo) :=
  if todoID ≤ 0 then .error .invalidTodoInput
  else
    match ValidateUpdateInput input with
    | .error e => .error (.wrap "validation failed" e)
    | .ok () =>
      match TodoRepository.GetByID db todoID userID with
      | .error e =>
        if e = .todoNotFound then .error .todoAccessDenied
        else .error (.wrap "failed to validate todo ownership" e)
      | .ok _ =>
        match TodoRepository.Update db todoID userID input with
        | .ok r => .ok r
        | .error e => .error (.wrap "failed to update todo" e)

/-- `TodoService.DeleteTodo`: same guard and ownership-check-then-`AccessDenied`
pattern; returns the new store on success. -/
def TodoService.DeleteTodo (db : List Todo) (todoID userID : Int) :
    Except TodoErr (List Todo) :=
  if todoID ≤ 0 then .error .invalidTodoInput
  else
    match TodoRepository.GetByID db todoID userID with
    | .error e =>
      if e = .todoNotFound then .error .todoAccessDenied
      else .error (.wrap "failed to verify todo ownership" e)
    | .ok _ =>
      match TodoRepository.Delete db todoID userID with
      | .ok db' => .ok db'
      | .error e => .error (.wrap "failed to delete todo" e)

/-- `TodoService.ToggleTodoComplete`: same pattern around the repository toggle. -/
def TodoService.ToggleTodoComplete (db : List Todo) (todoID userID : Int) :
    Except TodoErr (Todo × List Todo) :=
  if todoID ≤ 0 then .error .invalidTodoInput
  else
    match TodoRepository.GetByID db todoID userID with
    | .error e =>
      if e = .todoNotFound then .error .todoAccessDenied
      else .error (.wrap "failed to verity todo ownership" e)
    | .ok _ =>
      match TodoRepository.ToggleComplete db todoID userID with
      | .ok r => .ok r
      | .error e => .error (.wrap "failed to toggle complete todo" e)

/-- Result of `TodoService.BatchUpdateTodos`: Go's `([]*Todo, error)` plus the
resulting store.  `batchError = none` models a nil error; `some msg` a non-nil
error with message `msg`. -/
structure BatchResult where
  updated : List Todo
  batchError : Option String
  db : List Todo
deriving DecidableEq, Repr

/-- Loop body of `BatchUpdateTodos`: sequentially attempt `UpdateTodo` per id,
collecting updated todos, per-id error strings `"todo <id>: <err>"`, and the
evolving store. -/
def TodoService.batchLoop (userID : Int) (input : UpdateTodoInput) :
    List Todo → List Int → List Todo × List String × List Todo
  | db, [] => ([], [], db)
  | db, todoID :: rest =>
    match TodoService.UpdateTodo db todoID userID input with
    | .ok (t, db') =>
      let r := TodoService.batchLoop userID input db' rest
      (t :: r.1, r.2.1, r.2.2)
    | .error e =>
      let r := TodoService.batchLoop userID input db rest
      (r.1, ("todo " ++ toString todoID ++ ": " ++ e.message) :: r.2.1, r.2.2)

/-- `TodoService.BatchUpdateTodos`: empty id list short-circuits, the shared
payload is validated once up front, then each id is attempted independently;
on any failure the partial success list is returned together with a combined
`"batch update errors: ..."` error joined by `"; "`. -/
def TodoService.BatchUpdateTodos (db : List Todo) (userID : Int)
    (todoIDs : List Int) (input : UpdateTodoInput) : BatchResult :=
  if todoIDs.isEmpty then { updated := [], batchError := none, db := db }
  else
    match ValidateUpdateInput input with
    | .error e =>
      { updated := [], batchError := some ("validation failed: " ++ e.message),
        db := db }
    | .ok () =>
      let r := TodoService.batchLoop userID input db todoIDs
      if r.2.1.isEmpty then { updated := r.1, batchError := none, db := r.2.2 }
      else
        { updated := r.1
          batchError := some ("batch update errors: " ++
            String.intercalate "; " r.2.1)
          db := r.2.2 }

/-- Whether the store holds a todo with this id owned by this user (the
condition under which the ownership-scoped fetch succeeds). -/
def ownedID (db : List Todo) (userID todoID : Int) : Bool :=
  db.any (ownScope todoID userID)

/-- Error string recorded by the batch loop for a failing id, given a payload
that passed validation: a non-positive id fails the id guard, any other
failure is the ownership rejection. -/
def batchErrMsg (todoID : Int) : String :=
  if todoID ≤ 0 then "todo " ++ toString todoID ++ ": invalid todo input"
  else "todo " ++ toString todoID ++ ": access denied: todo does not belong to user"

/-- Row of the `users` table / Go struct `auth.User`. -/
structure User where
  id : Int
  email : String
  passwordHash : String
  createdAt : Int
  updatedAt : Int
  lastLoginAt : Option Int
deriving DecidableEq, Repr

/-- Error values of package `auth` (`repository.go` sentinels and the token
errors of `jwt.go`), with `wrap` for `fmt.Errorf("msg: %w", err)`. -/
inductive AuthErr where
  | userNotFound
  | emailExists
  | invalidCredentials
  | invalidSigningMethod
  | signatureInvalid
  | tokenExpired
  | tokenNotYetValid
  | wrap (msg : String) (inner : AuthErr)
deriving DecidableEq, Repr

/-- `UserRepository.GetByEmail`: `SELECT ... WHERE email = $1`; `ErrNoRows`
maps to `ErrUserNotFound`. -/
def UserRepository.GetByEmail (udb : List User) (email : String) :
    Except AuthErr User :=
  match udb.find? (fun u => u.email == email) with
  | some u => .ok u
  | none => .error .userNotFound

/-- `UserRepository.GetByID`: `SELECT ... WHERE id = $1`; `ErrNoRows` maps to
`ErrUserNotFound`. -/
def UserRepository.GetByID (udb : List User) (id : Int) : Except AuthErr User :=
  match udb.find? (fun u => u.id == id) with
  | some u => .ok u
  | none => .error .userNotFound

/-- `UserRepository.UpdateLastLogin`: `UPDATE users SET last_login_at = NOW(),
updated_at = NOW() WHERE id = $1`. -/
def UserRepository.UpdateLastLogin (udb : List User) (userID : Int) (now : Int) :
    List User :=
  udb.map (fun u => if u.id == userID
                    then { u with lastLoginAt := some now, updatedAt := now }
                    else u)

/-- `UserRepository.Authenticate`.  bcrypt verification
(`PasswordService.VerifyPassword`) is abstracted as the oracle
`verify hash password`.  An unknown email (`ErrUserNotFound` from
`GetByEmail`) and a failing password check are both mapped to
`ErrInvalidCredentials`; on success the last-login update is best-effort and
the fetched user is returned together with the new store. -/
def UserRepository.Authenticate (verify : String → String → Bool)
    (udb : List User) (now : Int) (email password : String) :
    Except AuthErr (User × List User) :=
  match UserRepository.GetByEmail udb email with
  | .error e =>
    if e = .userNotFound then .error .invalidCredentials else .error e
  | .ok user =>
    if verify user.passwordHash password then
      .ok (user, UserRepository.UpdateLastLogin udb user.id now)
    else .error .invalidCredentials

/-- Signing algorithm declared by a token (`jwt.SigningMethod`). -/
inductive SigAlg where
  | hs256
  | rs256
  | algNone
deriving DecidableEq, Repr

/-- `jwt.RegisteredClaims` (the fields this code sets). -/
structure RegisteredClaims where
  expiresAt : Int
  issuedAt : Int
  notBefore : Int
  issuer : String
  subject : String
deriving DecidableEq, Repr

/-- Go struct `auth.JWTClaims`: custom `user_id`/`email` fields plus the
registered claims.  Parsing a token whose payload lacks the custom fields
(a refresh token) unmarshals them as their zero values (`0`, `""`). -/
structure JWTClaims where
  userID : Int
  email : String
  registered : RegisteredClaims
deriving DecidableEq, Repr

/-- Symbolic signed token: claims plus the algorithm declared in the header
and the key the MAC was computed with (perfect-MAC abstraction of HS256). -/
structure SignedToken where
  claims : JWTClaims
  alg : SigAlg
  signedWith : String
deriving DecidableEq, Repr

/-- Go struct `auth.JWTService`: the shared secret and the access-token expiry
(here in seconds). -/
structure JWTService where
  secretKey : String
  expirySeconds : Int
deriving DecidableEq, Repr

/-- `JWTService.GenerateToken`: access token with issuer `"todo-app"`,
subject `fmt.Sprintf("%d", userID)`, expiry `now + expiry`, signed HS256 with
the service secret. -/
def JWTService.GenerateToken (j : JWTService) (now : Int) (userID : Int)
    (email : String) : SignedToken :=
  { claims :=
      { userID := userID
        email := email
        registered :=
          { expiresAt := now + j.expirySeconds
            issuedAt := now
            notBefore := now
            issuer := "todo-app"
            subject := toString userID } }
    alg := .hs256
    signedWith := j.secretKey }

/-- `JWTService.GenerateRefreshToken`: carries only registered claims — parsed
into `JWTClaims` the absent `user_id`/`email` read as zero values — with
issuer `"todo-app-refresh"` and a fixed 7-day expiry, signed with the same
secret. -/
def JWTService.GenerateRefreshToken (j : JWTService) (now : Int)
    (userID : Int) : SignedToken :=
  { claims :=
      { userID := 0
        email := ""
        registered :=
          { expiresAt := now + 24 * 7 * 3600
            issuedAt := now
            notBefore := now
            issuer := "todo-app-refresh"
            subject := toString userID } }
    alg := .hs256
    signedWith := j.secretKey }

/-- `JWTService.ValidateToken` (`jwt.ParseWithClaims` with a keyfunc rejecting
non-HMAC methods): the declared algorithm must be HMAC, the MAC must verify
under the service secret, and the jwt/v5 default claim validation requires
`now < exp` and `nbf ≤ now`.  No other claim — in particular not the issuer —
is checked. -/
def JWTService.ValidateToken (j : JWTService) (now : Int) (t : SignedToken) :
    Except AuthErr JWTClaims :=
  if t.alg ≠ .hs256 then .error .invalidSigningMethod
  else if t.signedWith ≠ j.secretKey then .error .signatureInvalid
  else if t.claims.registered.expiresAt ≤ now then .error .tokenExpired
  else if now < t.claims.registered.notBefore then .error .tokenNotYetValid
  else .ok t.claims

/-- `AuthService.GetUserFromToken`: validate the access token, then resolve
the user id carried in the claims against the user store; the claims' other
fields are discarded.  (The Go code round-trips the id through
`fmt.Sprintf("%d", ...)`/`strconv.Atoi`, the identity on decimal renderings.) -/
def AuthService.GetUserFromToken (j : JWTService) (udb : List User)
    (now : Int) (t : SignedToken) : Except AuthErr User :=
  match JWTService.ValidateToken j now t with
  | .error e => .error (.wrap "invalid token" e)
  | .ok claims =>
    match UserRepository.GetByID udb claims.userID with
    | .error e => .error (.wrap "user not found" e)
    | .ok user => .ok user

/-- Go struct `auth.ValidationErrors` (field-tagged registration errors). -/
structure ValidationErrors where
  email : String
  password : String
deriving DecidableEq, Repr

/-- `ValidationErrors.HasErrors`. -/
def ValidationErrors.hasErrors (ve : ValidationErrors) : Bool :=
  ve.email ≠ "" || ve.password ≠ ""

/-- `ValidationErrors.Error()`: the populated fields tagged and joined with
`", "`. -/
def ValidationErrors.message (ve : ValidationErrors) : String :=
  String.intercalate ", "
    ((if ve.email ≠ "" then ["email: " ++ ve.email] else []) ++
     (if ve.password ≠ "" then ["password: " ++ ve.password] else []))

/-- Character class `[a-zA-Z0-9._%+-]` of the local part of `EmailRegex`. -/
def isLocalChar (c : Char) : Bool :=
  c.isAlphanum || c = '.' || c = '_' || c = '%' || c = '+' || c = '-'

/-- Character class `[a-zA-Z0-9.-]` of the domain part of `EmailRegex`. -/
def isDomainChar (c : Char) : Bool :=
  c.isAlphanum || c = '.' || c = '-'

/-- Domain side of `EmailRegex`, `[a-zA-Z0-9.-]+\.[a-zA-Z0-9]{2,}$`: at least
two alphanumeric characters after the last dot, and a nonempty `[a-zA-Z0-9.-]+`
prefix before it. -/
def domainRegexOK (domain : String) : Bool :=
  let rev := domain.data.reverse
  let tldRev := rev.takeWhile (fun c => c ≠ '.')
  match rev.dropWhile (fun c => c ≠ '.') with
  | '.' :: preRev =>
    decide (2 ≤ tldRev.length) && tldRev.all Char.isAlphanum &&
    !preRev.isEmpty && preRev.all isDomainChar
  | _ => false

/-- The compiled `EmailRegex`
`^[a-zA-Z0-9._%+-]+@[a-zA-Z0-9.-]+\.[a-zA-Z0-9]{2,}$` as an executable
matcher: since `@` occurs in neither class, a match is exactly one `@`
splitting a nonempty local part (all in its class) from a matching domain. -/
def emailRegexMatch (s : String) : Bool :=
  match s.splitOn "@" with
  | [loc, domain] =>
    !loc.data.isEmpty && loc.data.all isLocalChar && domainRegexOK domain
  | _ => false

/-- `ValidatorService.IsValidEmail` (auth): length cap 254 (Go `len` = bytes),
the regex, then the extra edge-case rejections of the Go code. -/
def IsValidEmail (email : String) : Bool :=
  if 254 < email.utf8ByteSize then false
  else if !emailRegexMatch email then false
  else if hasSubstr email.data "..".data then false
  else if email.startsWith "." || email.endsWith "." then false
  else
    let parts := email.splitOn "@"
    if parts.length < 2 then false
    else
      let localPart := parts.headD ""
      if localPart.startsWith "." || localPart.endsWith "." then false
      else true

/-- `ValidatorService.IsValidPassword` (auth): `len(password) >= 8`. -/
def IsValidPassword (password : String) : Bool :=
  8 ≤ password.utf8ByteSize

/-- `ValidatorService.ValidateRegisterInput`: both fields are checked and
their error messages collected into one `ValidationErrors`; `some ve` models
returning the non-nil aggregated error. -/
def ValidateRegisterInput (email password : String) :
    Option ValidationErrors :=
  let ve : ValidationErrors :=
    { email :=
        if email = "" then "email is required"
        else if !IsValidEmail email then "email format is invalid"
        else ""
      password :=
        if password = "" then "password is required"
        else if !IsValidPassword password then
          "password must be at least 8 character long"
        else "" }
  if ve.hasErrors then some ve else none

theorem dropWhile_twice (p : Char → Bool) (l : List Char) :
    (l.dropWhile p).dropWhile p = l.dropWhile p := by
  induction l with
  | nil => rfl
  | cons a l ih =>
    by_cases h : p a
    · simp [List.dropWhile_cons, h, ih]
    · simp [List.dropWhile_cons, h]

theorem head?_dropWhile_false (p : Char → Bool) :
    ∀ (l : List Char) (x : Char), (l.dropWhile p).head? = some x → p x = false := by
  intro l
  induction l with
  | nil => intro x h; simp [List.dropWhile] at h
  | cons a l ih =>
    intro x h
    rw [List.dropWhile_cons] at h
    cases hp : p a
    · rw [hp] at h
      simp at h
      exact h ▸ hp
    · rw [hp] at h
      simp at h
      exact ih x h

theorem getLast?_dropWhile (p : Char → Bool) :
    ∀ l : List Char, l.dropWhile p ≠ [] →
      (l.dropWhile p).getLast? = l.getLast? := by
  intro l
  induction l with
  | nil => intro h; simp [List.dropWhile] at h
  | cons a l ih =>
    intro h
    rw [List.dropWhile_cons] at h ⊢
    cases hp : p a
    · rw [hp] at h
      simp
    · rw [hp] at h
      rw [if_pos rfl] at h ⊢
      have hl : l ≠ [] := by
        intro h0
        subst h0
        simp [List.dropWhile] at h
      rw [ih h]
      cases l with
      | nil => exact absurd rfl hl
      | cons b l' => simp

theorem dropWhile_eq_self_of_head (p : Char → Bool) (m : List Char)
    (h : ∀ x, m.head? = some x → p x = false) : m.dropWhile p = m := by
  cases m with
  | nil => rfl
  | cons a l =>
    rw [List.dropWhile_cons, h a rfl]
    simp

theorem goTrimSpaceChars_idem (l : List Char) :
    goTrimSpaceChars (goTrimSpaceChars l) = goTrimSpaceChars l := by
  have h1 : (goTrimSpaceChars l).dropWhile goIsSpace = goTrimSpaceChars l := by
    apply dropWhile_eq_self_of_head
    intro x hx
    unfold goTrimSpaceChars at hx
    rw [List.head?_reverse] at hx
    by_cases hc : (l.dropWhile goIsSpace).reverse.dropWhile goIsSpace = []
    · rw [hc] at hx
      simp at hx
    · rw [getLast?_dropWhile goIsSpace _ hc, List.getLast?_reverse] at hx
      exact head?_dropWhile_false goIsSpace l x hx
  have h2 : (goTrimSpaceChars l).reverse =
      (l.dropWhile goIsSpace).reverse.dropWhile goIsSpace := by
    unfold goTrimSpaceChars
    rw [List.reverse_reverse]
  calc goTrimSpaceChars (goTrimSpaceChars l)
      = (((goTrimSpaceChars l).dropWhile goIsSpace).reverse.dropWhile
          goIsSpace).reverse := rfl
    _ = ((goTrimSpaceChars l).reverse.dropWhile goIsSpace).reverse := by rw [h1]
    _ = goTrimSpaceChars l := by
        rw [h2, dropWhile_twice]
        rfl

theorem goTrimSpace_idem (s : String) :
    goTrimSpace (goTrimSpace s) = goTrimSpace s :=
  congrArg String.mk (goTrimSpaceChars_idem s.data)

/-- C4: `GetUserTodos` normalizes its filter before querying: a limit ≤ 0
becomes 20, a limit > 100 becomes 100, an in-range limit is kept, a negative
offset becomes 0, a non-negative offset is kept, the search term is
whitespace-trimmed with an all-whitespace term (trimming to `""`) becoming no
search, and the completed flag passes through unchanged. -/
theorem normalizeFilter_clauses (f : TodoFilter) :
    (f.limit ≤ 0 → (TodoService.normalizeFilter f).limit = 20) ∧
    (100 < f.limit → (TodoService.normalizeFilter f).limit = 100) ∧
    (0 < f.limit → f.limit ≤ 100 →
      (TodoService.normalizeFilter f).limit = f.limit) ∧
    (f.offset < 0 → (TodoService.normalizeFilter f).offset = 0) ∧
    (0 ≤ f.offset → (TodoService.normalizeFilter f).offset = f.offset) ∧
    ((TodoService.normalizeFilter f).search =
      match f.search with
      | some s => if goTrimSpace s = "" then none else some (goTrimSpace s)
      | none => none) ∧
    (TodoService.normalizeFilter f).completed = f.completed := by
  unfold TodoService.normalizeFilter
  refine ⟨?_, ?_, ?_, ?_, ?_, ?_, rfl⟩
  · intro h; simp only []; split_ifs <;> omega
  · intro h; simp only []; split_ifs <;> omega
  · intro h1 h2; simp only []; split_ifs <;> omega
  · intro h; simp only []; split_ifs <;> omega
  · intro h; simp only []; split_ifs <;> omega
  · rfl

/-- Witness for C4 at the spec's own examples: limit 200 is capped to 100 with
a trimmed search term, offset -5 is clamped to 0, and the zero filter gets the
default limit 20. -/
theorem normalizeFilter_clauses_witness :
    (TodoService.normalizeFilter ⟨some true, some "  hi ", 200, -5⟩).limit = 100 ∧
    (TodoService.normalizeFilter ⟨some true, some "  hi ", 200, -5⟩).offset = 0 ∧
    (TodoService.normalizeFilter ⟨none, none, 0, 3⟩).limit = 20 :=
  ⟨(normalizeFilter_clauses ⟨some true, some "  hi ", 200, -5⟩).2.1 (by decide),
   (normalizeFilter_clauses ⟨some true, some "  hi ", 200, -5⟩).2.2.2.1 (by decide),
   (normalizeFilter_clauses ⟨none, none, 0, 3⟩).1 (by decide)⟩

/-- C9: filter normalization is idempotent. -/
theorem normalizeFilter_idem (f : TodoFilter) :
    TodoService.normalizeFilter (TodoService.normalizeFilter f) =
      TodoService.normalizeFilter f := by
  cases f with
  | mk completed search limit offset =>
    unfold TodoService.normalizeFilter
    simp only [TodoFilter.mk.injEq]
    refine ⟨trivial, ?_, ?_, ?_⟩
    · cases search with
      | none => rfl
      | some s =>
        by_cases h : goTrimSpace s = ""
        · simp [h]
        · simp [h, goTrimSpace_idem]
    · split_ifs <;> omega
    · split_ifs <;> omega

/-- C5: in the listing operation the envelope's `total` is the full unfiltered
per-user count (`CountByUserID`), while `hasMore` is computed from the
filtered result set's count: `hasMore = offset + len(todos) < total`, with
`todos` the filtered page actually returned. -/
theorem getByUserID_total_hasMore (db : List Todo) (userID : Int)
    (filter : TodoFilter) :
    (TodoRepository.GetByUserID db userID filter).total =
      TodoRepository.CountByUserID db userID ∧
    (TodoRepository.GetByUserID db userID filter).hasMore =
      decide (filter.offset +
        (((TodoRepository.GetByUserID db userID filter).todos.length : Int)) <
        TodoRepository.CountByUserID db userID) := by
  constructor
  · rfl
  · rfl

set_option maxHeartbeats 1000000 in
/-- C7: exact characterization of both todo validators.  Create: TitleRequired
iff the title is empty, TitleTooLong iff it is nonempty and over 500 bytes,
DescriptionTooLong iff the title passes and a present description is over 2000
bytes.  Update: InvalidInput iff no field is present; otherwise the same
per-field bounds apply to whichever of title/description is present. -/
theorem validators_exact (cin : CreateTodoInput) (uin : UpdateTodoInput) :
    (ValidateTodoInput cin = .error .todoTitleRequired ↔ cin.title = "") ∧
    (ValidateTodoInput cin = .error .todoTitleTooLong ↔
      (cin.title ≠ "" ∧ 500 < cin.title.utf8ByteSize)) ∧
    (ValidateTodoInput cin = .error .todoDescriptionTooLong ↔
      (cin.title ≠ "" ∧ cin.title.utf8ByteSize ≤ 500 ∧
        ∃ d, cin.description = some d ∧ 2000 < d.utf8ByteSize)) ∧
    (ValidateUpdateInput uin = .error .invalidTodoInput ↔
      (uin.title = none ∧ uin.description = none ∧ uin.completed = none)) ∧
    (ValidateUpdateInput uin = .error .todoTitleRequired ↔
      uin.title = some "") ∧
    (ValidateUpdateInput uin = .error .todoTitleTooLong ↔
      (∃ t, uin.title = some t ∧ t ≠ "" ∧ 500 < t.utf8ByteSize)) ∧
    (ValidateUpdateInput uin = .error .todoDescriptionTooLong ↔
      ((uin.title = none ∨
          ∃ t, uin.title = some t ∧ t ≠ "" ∧ t.utf8ByteSize ≤ 500) ∧
        ∃ d, uin.description = some d ∧ 2000 < d.utf8ByteSize)) := by
  obtain ⟨ctitle, cdesc⟩ := cin
  obtain ⟨utitle, udesc, ucompl⟩ := uin
  refine ⟨?_, ?_, ?_, ?_, ?_, ?_, ?_⟩
  · simp only [ValidateTodoInput, validateTitle, validateDescription]
    cases cdesc <;> split_ifs <;> simp_all [not_lt] <;> try split_ifs <;>
      try simp_all [not_lt]
  · simp only [ValidateTodoInput, validateTitle, validateDescription]
    cases cdesc <;> split_ifs <;> simp_all [not_lt] <;> try split_ifs <;>
      try simp_all [not_lt]
  · simp only [ValidateTodoInput, validateTitle, validateDescription]
    cases cdesc <;> split_ifs <;> simp_all [not_lt] <;> try split_ifs <;>
      try simp_all [not_lt]
  · simp only [ValidateUpdateInput, validateTitle, validateDescription]
    cases utitle <;> cases udesc <;> cases ucompl <;> split_ifs <;>
      simp_all [not_lt] <;> try split_ifs <;> try simp_all [not_lt]
  · simp only [ValidateUpdateInput, validateTitle, validateDescription]
    cases utitle <;> cases udesc <;> cases ucompl <;> split_ifs <;>
      simp_all [not_lt] <;> try split_ifs <;> try simp_all [not_lt]
  · simp only [ValidateUpdateInput, validateTitle, validateDescription]
    cases utitle <;> cases udesc <;> cases ucompl <;> split_ifs <;>
      simp_all [not_lt] <;> try split_ifs <;> try simp_all [not_lt]
  · simp only [ValidateUpdateInput, validateTitle, validateDescription]
    cases utitle <;> cases udesc <;> cases ucompl <;> split_ifs <;>
      simp_all [not_lt] <;> try split_ifs <;> try simp_all [not_lt]

/-- C6: authentication maps both failure causes to the identical
`ErrInvalidCredentials` value: an email with no account, and an existing
account whose password does not verify, produce the very same error, for any
store, clock and verification oracle. -/
theorem authenticate_ambiguous (verify : String → String → Bool)
    (udb : List User) (now : Int) (email password : String) :
    (udb.find? (fun u => u.email == email) = none →
      UserRepository.Authenticate verify udb now email password =
        .error .invalidCredentials) ∧
    (∀ u, udb.find? (fun u => u.email == email) = some u →
      verify u.passwordHash password = false →
      UserRepository.Authenticate verify udb now email password =
        .error .invalidCredentials) := by
  constructor
  · intro h
    unfold UserRepository.Authenticate UserRepository.GetByEmail
    rw [h]
    rfl
  · intro u hu hv
    unfold UserRepository.Authenticate UserRepository.GetByEmail
    rw [hu]
    simp [hv]

/-- Witness for C6: with an always-failing verifier and a one-user store, the
known-email/wrong-password case and the unknown-email case both return the
identical `invalidCredentials` error. -/
theorem authenticate_ambiguous_witness :
    UserRepository.Authenticate (fun _ _ => false)
      [⟨1, "a@b.co", "h", 0, 0, none⟩] 0 "a@b.co" "pw" =
      .error .invalidCredentials ∧
    UserRepository.Authenticate (fun _ _ => false)
      [⟨1, "a@b.co", "h", 0, 0, none⟩] 0 "x@y.co" "pw" =
      .error .invalidCredentials :=
  ⟨(authenticate_ambiguous (fun _ _ => false) [⟨1, "a@b.co", "h", 0, 0, none⟩]
      0 "a@b.co" "pw").2 ⟨1, "a@b.co", "h", 0, 0, none⟩ (by decide) rfl,
   (authenticate_ambiguous (fun _ _ => false) [⟨1, "a@b.co", "h", 0, 0, none⟩]
      0 "x@y.co" "pw").1 (by decide)⟩

/-- C2 counterexample: `ValidateToken` accepts (does not reject) a concrete
refresh token issued by `GenerateRefreshToken`, correctly signed under the
configured secret and unexpired, contradicting the claim that access-token
validation rejects every such token. -/
theorem validateToken_accepts_refresh :
    (JWTService.ValidateToken ⟨"0123456789abcdef0123456789abcdef", 3600⟩ 1
      (JWTService.GenerateRefreshToken
        ⟨"0123456789abcdef0123456789abcdef", 3600⟩ 0 42)).isOk = true := by
  decide

/-- C2 amended: `ValidateToken` checks the HMAC signing method, the signature
against the configured secret, and the exp/nbf window, but not the issuer: a
refresh token from `GenerateRefreshToken` inside its 7-day window is accepted,
and the returned claims carry issuer `"todo-app-refresh"` with zero-valued
`user_id`/`email`; the issuer strings distinguish the two token kinds only
syntactically. -/
theorem validateToken_refresh_accepted (j : JWTService)
    (now t0 userID : Int) (h1 : t0 ≤ now) (h2 : now < t0 + 24 * 7 * 3600) :
    JWTService.ValidateToken j now (JWTService.GenerateRefreshToken j t0 userID) =
      .ok { userID := 0, email := ""
            registered := { expiresAt := t0 + 24 * 7 * 3600, issuedAt := t0,
                            notBefore := t0, issuer := "todo-app-refresh",
                            subject := toString userID } } := by
  unfold JWTService.ValidateToken JWTService.GenerateRefreshToken
  simp only []
  rw [if_neg (by simp), if_neg (by simp), if_neg (by omega), if_neg (by omega)]

/-- Witness for the amended C2 at a concrete service, clock and user id. -/
theorem validateToken_refresh_accepted_witness :
    JWTService.ValidateToken ⟨"0123456789abcdef0123456789abcdef", 3600⟩ 1
      (JWTService.GenerateRefreshToken
        ⟨"0123456789abcdef0123456789abcdef", 3600⟩ 0 42) =
      .ok { userID := 0, email := ""
            registered := { expiresAt := 0 + 24 * 7 * 3600, issuedAt := 0,
                            notBefore := 0, issuer := "todo-app-refresh",
                            subject := toString (42 : Int) } } :=
  validateToken_refresh_accepted ⟨"0123456789abcdef0123456789abcdef", 3600⟩
    1 0 42 (by decide) (by decide)

/-- C10: `GetUserFromToken` on a token that validates to some claims resolves
the user id carried in the claims against the user store and returns the
stored record verbatim (its email and fields come from the store, not from
the token), and fails with a wrapped `ErrUserNotFound` when no stored account
has that id. -/
theorem getUserFromToken_resolves_store (j : JWTService) (udb : List User)
    (now : Int) (t : SignedToken) (claims : JWTClaims)
    (hv : JWTService.ValidateToken j now t = .ok claims) :
    (∀ u, udb.find? (fun x => x.id == claims.userID) = some u →
      AuthService.GetUserFromToken j udb now t = .ok u) ∧
    (udb.find? (fun x => x.id == claims.userID) = none →
      AuthService.GetUserFromToken j udb now t =
        .error (.wrap "user not found" .userNotFound)) := by
  constructor
  · intro u hu
    unfold AuthService.GetUserFromToken UserRepository.GetByID
    rw [hv]
    dsimp only
    rw [hu]
  · intro h
    unfold AuthService.GetUserFromToken UserRepository.GetByID
    rw [hv]
    dsimp only
    rw [h]

/-- Witness for C10: a valid access token for user id 7 with email
`"token@example.com"` resolves to the stored record whose email is
`"store@example.com"` (store-sourced, not token-sourced), and against an
empty store the same token yields the wrapped user-not-found error. -/
theorem getUserFromToken_resolves_store_witness :
    AuthService.GetUserFromToken ⟨"0123456789abcdef0123456789abcdef", 3600⟩
      [⟨7, "store@example.com", "h", 0, 0, none⟩] 1
      (JWTService.GenerateToken ⟨"0123456789abcdef0123456789abcdef", 3600⟩ 0 7
        "token@example.com") =
      .ok ⟨7, "store@example.com", "h", 0, 0, none⟩ ∧
    AuthService.GetUserFromToken ⟨"0123456789abcdef0123456789abcdef", 3600⟩
      [] 1
      (JWTService.GenerateToken ⟨"0123456789abcdef0123456789abcdef", 3600⟩ 0 7
        "token@example.com") =
      .error (.wrap "user not found" .userNotFound) :=
  ⟨(getUserFromToken_resolves_store ⟨"0123456789abcdef0123456789abcdef", 3600⟩
      [⟨7, "store@example.com", "h", 0, 0, none⟩] 1
      (JWTService.GenerateToken ⟨"0123456789abcdef0123456789abcdef", 3600⟩ 0 7
        "token@example.com")
      { userID := 7, email := "token@example.com"
        registered := { expiresAt := 3600, issuedAt := 0, notBefore := 0,
                        issuer := "todo-app", subject := "7" } }
      rfl).1 ⟨7, "store@example.com", "h", 0, 0, none⟩ (by decide),
   (getUserFromToken_resolves_store ⟨"0123456789abcdef0123456789abcdef", 3600⟩
      [] 1
      (JWTService.GenerateToken ⟨"0123456789abcdef0123456789abcdef", 3600⟩ 0 7
        "token@example.com")
      { userID := 7, email := "token@example.com"
        registered := { expiresAt := 3600, issuedAt := 0, notBefore := 0,
                        issuer := "todo-app", subject := "7" } }
      rfl).2 rfl⟩

/-- C8: when both registration inputs are invalid, `ValidateRegisterInput`
returns one aggregated field-tagged error carrying both the email problem and
the password problem, with the exact messages determined by which check each
field failed. -/
theorem validateRegister_aggregates (email password : String)
    (he : email = "" ∨ IsValidEmail email = false)
    (hp : password = "" ∨ IsValidPassword password = false) :
    ValidateRegisterInput email password =
      some { email := if email = "" then "email is required"
                      else "email format is invalid"
             password := if password = "" then "password is required"
                         else "password must be at least 8 character long" } := by
  have hemail : (if email = "" then "email is required"
      else if !IsValidEmail email then "email format is invalid" else "") =
      if email = "" then "email is required" else "email format is invalid" := by
    by_cases h0 : email = ""
    · rw [if_pos h0, if_pos h0]
    · rcases he with he | he
      · exact absurd he h0
      · rw [if_neg h0, if_neg h0, he]
        rfl
  have hpassword : (if password = "" then "password is required"
      else if !IsValidPassword password then
        "password must be at least 8 character long" else "") =
      if password = "" then "password is required"
      else "password must be at least 8 character long" := by
    by_cases h0 : password = ""
    · rw [if_pos h0, if_pos h0]
    · rcases hp with hp | hp
      · exact absurd hp h0
      · rw [if_neg h0, if_neg h0, hp]
        rfl
  simp only [ValidateRegisterInput]
  rw [hemail, hpassword]
  have hcond : ({ email := if email = "" then "email is required"
                    else "email format is invalid"
                  password := if password = "" then "password is required"
                    else "password must be at least 8 character long" } :
      ValidationErrors).hasErrors = true := by
    unfold ValidationErrors.hasErrors
    split_ifs <;> rfl
  simp [hcond]

/-- Witness for C8 at the spec's example: empty email and too-short password
yield one error tagging both fields. -/
theorem validateRegister_aggregates_witness :
    ValidateRegisterInput "" "short" =
      some { email := "email is required"
             password := "password must be at least 8 character long" } := by
  have h := validateRegister_aggregates "" "short" (Or.inl rfl)
    (Or.inr (by decide))
  simpa using h

/-- C1: when the ownership-scoped fetch of (todoID, userID) reports NotFound —
the todo is absent or owned by another user — the mutating service operations
`UpdateTodo`, `DeleteTodo` and `ToggleTodoComplete` all fail with
`ErrTodoAccessDenied`, while `GetTodo` fails with (wrapped) `ErrTodoNotFound`;
each operation returns an error only, so no record is returned and the store
is not mutated.  The hypotheses put the call at its ownership check: a
positive id (a non-positive one is rejected earlier as `ErrInvalidTodoInput`)
and, for the update, a payload that passes validation. -/
theorem ownership_notFound_mapping (db : List Todo) (todoID userID : Int)
    (input : UpdateTodoInput)
    (hpos : 0 < todoID)
    (hval : ValidateUpdateInput input = .ok ())
    (hnf : TodoRepository.GetByID db todoID userID = .error .todoNotFound) :
    TodoService.UpdateTodo db todoID userID input = .error .todoAccessDenied ∧
    TodoService.DeleteTodo db todoID userID = .error .todoAccessDenied ∧
    TodoService.ToggleTodoComplete db todoID userID =
      .error .todoAccessDenied ∧
    TodoService.GetTodo db todoID userID =
      .error (.wrap "failed to get todos" .todoNotFound) := by
  have hng : ¬ todoID ≤ 0 := by omega
  refine ⟨?_, ?_, ?_, ?_⟩
  · unfold TodoService.UpdateTodo
    rw [if_neg hng, hval, hnf]
    rfl
  · unfold TodoService.DeleteTodo
    rw [if_neg hng, hnf]
    rfl
  · unfold TodoService.ToggleTodoComplete
    rw [if_neg hng, hnf]
    rfl
  · unfold TodoService.GetTodo
    rw [if_neg hng, hnf]

/-- Witness for C1: in a store holding only a todo owned by user 2, user 1's
fetch of that todo reports NotFound, and the four operations map it as
claimed. -/
theorem ownership_notFound_mapping_witness :
    TodoService.UpdateTodo [⟨5, 2, "b", none, false, 0⟩] 5 1
      ⟨some "a", none, none⟩ = .error .todoAccessDenied ∧
    TodoService.DeleteTodo [⟨5, 2, "b", none, false, 0⟩] 5 1 =
      .error .todoAccessDenied ∧
    TodoService.ToggleTodoComplete [⟨5, 2, "b", none, false, 0⟩] 5 1 =
      .error .todoAccessDenied ∧
    TodoService.GetTodo [⟨5, 2, "b", none, false, 0⟩] 5 1 =
      .error (.wrap "failed to get todos" .todoNotFound) :=
  ownership_notFound_mapping [⟨5, 2, "b", none, false, 0⟩] 5 1
    ⟨some "a", none, none⟩ (by decide) rfl rfl

theorem applyUpdateInput_id (input : UpdateTodoInput) (t : Todo) :
    (applyUpdateInput input t).id = t.id := rfl

theorem updFun_id (todoID userID : Int) (input : UpdateTodoInput) (t : Todo) :
    (updFun todoID userID input t).id = t.id := by
  unfold updFun
  split <;> rfl

theorem updFun_userID (todoID userID : Int) (input : UpdateTodoInput)
    (t : Todo) : (updFun todoID userID input t).userID = t.userID := by
  unfold updFun
  split <;> rfl

theorem ownedID_map_updFun (db : List Todo) (tid uid : Int)
    (input : UpdateTodoInput) (u i : Int) :
    ownedID (db.map (updFun tid uid input)) u i = ownedID db u i := by
  unfold ownedID
  rw [List.any_map]
  congr 1
  funext t
  show ownScope i u (updFun tid uid input t) = ownScope i u t
  unfold ownScope
  rw [updFun_id, updFun_userID]

/-- Derived success condition of one batch-update attempt against a given
store, for a payload that already passed validation: the id is positive and
the store holds a row with that id owned by the acting user. -/
def batchAttemptOK (db : List Todo) (userID : Int) (todoID : Int) : Bool :=
  decide (0 < todoID) && ownedID db userID todoID

theorem batchAttemptOK_map (db : List Todo) (tid uid : Int)
    (input : UpdateTodoInput) (u i : Int) :
    batchAttemptOK (db.map (updFun tid uid input)) u i =
      batchAttemptOK db u i := by
  unfold batchAttemptOK
  rw [ownedID_map_updFun]

theorem valid_update_has_field (input : UpdateTodoInput)
    (h : ValidateUpdateInput input = .ok ()) :
    ¬(input.title = none ∧ input.description = none ∧
        input.completed = none) := by
  intro hall
  obtain ⟨h1, h2, h3⟩ := hall
  unfold ValidateUpdateInput at h
  rw [if_pos ⟨h3, h2, h1⟩] at h
  simp at h

theorem updateTodo_nonpos (db : List Todo) (todoID userID : Int)
    (input : UpdateTodoInput) (h : todoID ≤ 0) :
    TodoService.UpdateTodo db todoID userID input =
      .error .invalidTodoInput := by
  unfold TodoService.UpdateTodo
  rw [if_pos h]

theorem updateTodo_denied (db : List Todo) (todoID userID : Int)
    (input : UpdateTodoInput) (hval : ValidateUpdateInput input = .ok ())
    (hpos : 0 < todoID) (hown : ownedID db userID todoID = false) :
    TodoService.UpdateTodo db todoID userID input =
      .error .todoAccessDenied := by
  have hfind : db.find? (ownScope todoID userID) = none := by
    rw [List.find?_eq_none]
    intro x hx hpx
    have hany : db.any (ownScope todoID userID) = true :=
      List.any_eq_true.mpr ⟨x, hx, hpx⟩
    unfold ownedID at hown
    rw [hany] at hown
    exact Bool.noConfusion hown
  unfold TodoService.UpdateTodo TodoRepository.GetByID
  rw [if_neg (by omega), hval, hfind]
  rfl

theorem updateTodo_ok (db : List Todo) (todoID userID : Int)
    (input : UpdateTodoInput) (hval : ValidateUpdateInput input = .ok ())
    (hpos : 0 < todoID) (hown : ownedID db userID todoID = true) :
    ∃ t, db.find? (ownScope todoID userID) = some t ∧
      TodoService.UpdateTodo db todoID userID input =
        .ok (applyUpdateInput input t, db.map (updFun todoID userID input)) := by
  have hsome : (db.find? (ownScope todoID userID)).isSome := by
    rw [List.find?_isSome]
    unfold ownedID at hown
    exact List.any_eq_true.mp hown
  obtain ⟨t, ht⟩ := Option.isSome_iff_exists.mp hsome
  refine ⟨t, ht, ?_⟩
  unfold TodoService.UpdateTodo TodoRepository.GetByID TodoRepository.Update
  rw [if_neg (by omega), hval, ht,
    if_neg (valid_update_has_field input hval)]

theorem batchLoop_spec (userID : Int) (input : UpdateTodoInput)
    (hval : ValidateUpdateInput input = .ok ()) :
    ∀ (ids : List Int) (db : List Todo),
      (TodoService.batchLoop userID input db ids).1.map Todo.id =
        ids.filter (batchAttemptOK db userID) ∧
      (TodoService.batchLoop userID input db ids).2.1 =
        ids.filterMap (fun i =>
          if batchAttemptOK db userID i then none
          else some (batchErrMsg i)) ∧
      ∀ u j, ownedID (TodoService.batchLoop userID input db ids).2.2 u j =
        ownedID db u j := by
  intro ids
  induction ids with
  | nil =>
    intro db
    exact ⟨rfl, rfl, fun u j => rfl⟩
  | cons i rest ih =>
    intro db
    by_cases hpos : 0 < i
    · cases hown : ownedID db userID i
      · -- positive id, not owned: the attempt is rejected as access denied
        have hbad : batchAttemptOK db userID i = false := by
          unfold batchAttemptOK
          rw [hown, Bool.and_false]
        have hup := updateTodo_denied db i userID input hval hpos hown
        obtain ⟨ih1, ih2, ih3⟩ := ih db
        simp only [TodoService.batchLoop]
        rw [hup]
        dsimp only
        refine ⟨?_, ?_, ih3⟩
        · rw [ih1, List.filter_cons, hbad]
          simp
        · rw [ih2, List.filterMap_cons, hbad]
          simp only [Bool.false_eq_true, if_false]
          congr 1
          unfold batchErrMsg
          rw [if_neg (by omega)]
          simp only [String.append_assoc]
          rfl
      · -- positive id, owned: the attempt succeeds
        have hgood : batchAttemptOK db userID i = true := by
          unfold batchAttemptOK
          rw [hown, Bool.and_true, decide_eq_true_eq]
          exact hpos
        obtain ⟨t, ht, hup⟩ := updateTodo_ok db i userID input hval hpos hown
        have hpt : ownScope i userID t = true := List.find?_some ht
        have htid : t.id = i := by
          unfold ownScope at hpt
          simp only [Bool.and_eq_true, beq_iff_eq] at hpt
          exact hpt.1
        obtain ⟨ih1, ih2, ih3⟩ := ih (db.map (updFun i userID input))
        have hfunF : ∀ j ∈ rest,
            batchAttemptOK (db.map (updFun i userID input)) userID j =
              batchAttemptOK db userID j :=
          fun j _ => batchAttemptOK_map db i userID input userID j
        simp only [TodoService.batchLoop]
        rw [hup]
        dsimp only
        refine ⟨?_, ?_, ?_⟩
        · rw [List.map_cons, ih1, List.filter_congr hfunF,
            List.filter_cons, hgood]
          simp only [if_true, applyUpdateInput_id, htid]
        · rw [ih2, List.filterMap_cons, hgood, if_pos rfl]
          exact List.filterMap_congr fun j hj => by rw [hfunF j hj]
        · intro u j
          rw [ih3 u j, ownedID_map_updFun]
    · -- non-positive id: rejected by the id guard
      have hbad : batchAttemptOK db userID i = false := by
        unfold batchAttemptOK
        rw [decide_eq_false hpos, Bool.false_and]
      have hup := updateTodo_nonpos db i userID input (by omega)
      obtain ⟨ih1, ih2, ih3⟩ := ih db
      simp only [TodoService.batchLoop]
      rw [hup]
      dsimp only
      refine ⟨?_, ?_, ih3⟩
      · rw [ih1, List.filter_cons, hbad]
        simp
      · rw [ih2, List.filterMap_cons, hbad]
        simp only [Bool.false_eq_true, if_false]
        congr 1
        unfold batchErrMsg
        rw [if_pos (by omega)]
        simp only [String.append_assoc]
        rfl

/-- C3: `BatchUpdateTodos` semantics.  An empty id list short-circuits to an
empty list, nil error and untouched store, bypassing validation.  With a
nonempty list and an invalid shared payload it fails fast: no per-id attempt,
nil result list, a single wrapped validation error, untouched store.
Otherwise each id is attempted independently in input order: the successes
are exactly the positive ids owned by the caller in the starting store, in
input order, and the combined error is nil when every id succeeded and
otherwise names each failing id (in input order, with its per-id message)
joined by the `"; "` delimiter — returned together with the partial success
list. -/
theorem batchUpdate_semantics (db : List Todo) (userID : Int)
    (todoIDs : List Int) (input : UpdateTodoInput) :
    (todoIDs = [] →
      TodoService.BatchUpdateTodos db userID todoIDs input =
        { updated := [], batchError := none, db := db }) ∧
    (∀ e, todoIDs ≠ [] → ValidateUpdateInput input = .error e →
      TodoService.BatchUpdateTodos db userID todoIDs input =
        { updated := [],
          batchError := some ("validation failed: " ++ e.message),
          db := db }) ∧
    (todoIDs ≠ [] → ValidateUpdateInput input = .ok () →
      ((TodoService.BatchUpdateTodos db userID todoIDs input).updated.map
          Todo.id = todoIDs.filter (batchAttemptOK db userID)) ∧
      ((TodoService.BatchUpdateTodos db userID todoIDs input).batchError =
        if todoIDs.all (batchAttemptOK db userID) then none
        else some ("batch update errors: " ++ String.intercalate "; "
          (todoIDs.filterMap (fun i =>
            if batchAttemptOK db userID i then none
            else some (batchErrMsg i)))))) := by
  refine ⟨?_, ?_, ?_⟩
  · intro h
    subst h
    rfl
  · intro e hne hverr
    unfold TodoService.BatchUpdateTodos
    rw [if_neg (by simpa [List.isEmpty_iff] using hne), hverr]
  · intro hne hval
    obtain ⟨h1, h2, h3⟩ := batchLoop_spec userID input hval todoIDs db
    unfold TodoService.BatchUpdateTodos
    rw [if_neg (by simpa [List.isEmpty_iff] using hne), hval]
    dsimp only
    constructor
    · split_ifs <;> simpa using h1
    · cases hall : todoIDs.all (batchAttemptOK db userID)
      · -- some id fails: non-nil combined error listing the failures
        have hne2 : (TodoService.batchLoop userID input db todoIDs).2.1 ≠ [] := by
          rw [h2]
          obtain ⟨x, hx, hpx⟩ := List.all_eq_false.mp hall
          intro hnil
          have := List.filterMap_eq_nil_iff.mp hnil x hx
          rw [if_neg (by simpa using hpx)] at this
          exact Option.noConfusion this
        rw [if_neg (by simpa [List.isEmpty_iff] using hne2)]
        dsimp only
        rw [h2]
        rfl
      · -- all ids succeed: nil error
        have hnil : (TodoService.batchLoop userID input db todoIDs).2.1 = [] := by
          rw [h2]
          apply List.filterMap_eq_nil_iff.mpr
          intro i hi
          rw [if_pos (List.all_eq_true.mp hall i hi)]
        rw [if_pos (by simpa [List.isEmpty_iff] using hnil)]
        rfl

/-- Witness for C3 on concrete data: empty ids short-circuit even with an
invalid payload; a nonempty list with an invalid payload fails fast; and on a
store where user 1 owns todo 1 but todo 2 belongs to user 2, the batch over
[1, 2] returns the one updated id together with a combined error naming
todo 2. -/
theorem batchUpdate_semantics_witness :
    TodoService.BatchUpdateTodos
      [⟨1, 1, "a", none, false, 0⟩, ⟨2, 2, "b", none, false, 0⟩] 1 []
      ⟨none, none, none⟩ =
      { updated := [], batchError := none,
        db := [⟨1, 1, "a", none, false, 0⟩, ⟨2, 2, "b", none, false, 0⟩] } ∧
    TodoService.BatchUpdateTodos
      [⟨1, 1, "a", none, false, 0⟩, ⟨2, 2, "b", none, false, 0⟩] 1 [1]
      ⟨none, none, none⟩ =
      { updated := [],
        batchError := some "validation failed: invalid todo input",
        db := [⟨1, 1, "a", none, false, 0⟩, ⟨2, 2, "b", none, false, 0⟩] } ∧
    (TodoService.BatchUpdateTodos
      [⟨1, 1, "a", none, false, 0⟩, ⟨2, 2, "b", none, false, 0⟩] 1 [1, 2]
      ⟨none, none, some true⟩).updated.map Todo.id = [1] ∧
    (TodoService.BatchUpdateTodos
      [⟨1, 1, "a", none, false, 0⟩, ⟨2, 2, "b", none, false, 0⟩] 1 [1, 2]
      ⟨none, none, some true⟩).batchError =
      some "batch update errors: todo 2: access denied: todo does not belong to user" := by
  have hmain := (batchUpdate_semantics
    [⟨1, 1, "a", none, false, 0⟩, ⟨2, 2, "b", none, false, 0⟩] 1 [1, 2]
    ⟨none, none, some true⟩).2.2 (by decide) rfl
  refine ⟨(batchUpdate_semantics
      [⟨1, 1, "a", none, false, 0⟩, ⟨2, 2, "b", none, false, 0⟩] 1 []
      ⟨none, none, none⟩).1 rfl,
    (batchUpdate_semantics
      [⟨1, 1, "a", none, false, 0⟩, ⟨2, 2, "b", none, false, 0⟩] 1 [1]
      ⟨none, none, none⟩).2.1 .invalidTodoInput (by decide) rfl, ?_, ?_⟩
  · rw [hmain.1]
    rfl
  · rw [hmain.2]
    rfl
